import Mathlib

/-!
Shallow embedding of the core of `api-everywhere` (a Rust service that
projects spreadsheet rows into nested JSON), together with proofs about the
embedded definitions.

Strings are modelled as `List Char` (Rust `&str`/`String`); machine integers
(`usize`, `u32`) are modelled as `Nat` (Rust guarantees the checked paths we
embed never underflow, and the overflow-relevant spot, `str::parse::<usize>`,
is modelled with its explicit `2^64` bound).  Fallible Rust functions
returning `Result<T, E>` are modelled as `Except E T`.  Error enum variants
keep their non-string payloads; purely diagnostic `String` payloads built via
`format!` are elided.

The source files embedded here are:
  `src/external_service/spread_sheet/range.rs`
  `src/external_service/spread_sheet/cell.rs`
  `src/external_service/spread_sheet/sheet.rs`
  `src/external_service/spread_sheet/header.rs`
  `src/external_service/spread_sheet/value.rs`
  `src/external_service/spread_sheet/mod.rs`
  `src/external_service/spread_sheet/api/operation.rs`
  `src/json_structure/mod.rs`
-/

namespace ApiEverywhere

/-- Decidable equality on `Except`, used to evaluate the embedded fallible
functions on concrete inputs. -/
instance {ε α : Type} [DecidableEq ε] [DecidableEq α] : DecidableEq (Except ε α) :=
  fun x y =>
    match x, y with
    | .error a, .error b => decidable_of_iff (a = b) (by simp)
    | .error _, .ok _ => isFalse (by simp)
    | .ok _, .error _ => isFalse (by simp)
    | .ok a, .ok b => decidable_of_iff (a = b) (by simp)

/-- The single-quote character, written via its code point. -/
def squote : Char := Char.ofNat 39

/-- The double-quote character. -/
def dquote : Char := Char.ofNat 34

/-- The regex character class `[A-Z]` used by the range/cell grammars. -/
def isUpperAZ (c : Char) : Bool := 'A' ≤ c && c ≤ 'Z'

/-- The regex character class `[0-9]` used by the range/cell grammars. -/
def isDigit09 (c : Char) : Bool := '0' ≤ c && c ≤ '9'

/-- Split a character list at every occurrence of `sep` (like Rust
`str::split` on a one-character pattern): `n` separators yield `n+1` pieces,
and an empty input yields one empty piece. -/
def splitOnChar (sep : Char) : List Char → List (List Char)
  | [] => [[]]
  | c :: rest =>
    if c = sep then [] :: splitOnChar sep rest
    else
      match splitOnChar sep rest with
      | [] => [[c]]
      | p :: ps => (c :: p) :: ps

/-- `str::trim`: strip leading and trailing whitespace. -/
def trimChars (cs : List Char) : List Char :=
  ((cs.dropWhile Char.isWhitespace).reverse.dropWhile Char.isWhitespace).reverse

/-!
## The `regex` crate semantics used by the embedded code

All regexes in the embedded sources are unanchored and use `.`, which in the
`regex` crate matches every character except `'\n'`.  `Regex::captures`
returns the leftmost match, with a lazy `.*?` preferring the shortest and a
greedy `.*` the longest alternative at that leftmost starting position.

For the pattern `q(.*)q` (with `q` a quote character) this gives: the match
lies within a single `'\n'`-separated line, the engine picks the first line
containing two `q`s, and the capture is everything strictly between the first
and the last `q` of that line.  `lineQuoteCapture`/`quotedCapture` implement
exactly that.
-/

/-- After the first `q` of a line, the greedy `.*` backtracks to the last `q`
of the line: drop the reversed tail up to and including that last `q`. -/
def lineQuoteTail (q : Char) (afterFirst : List Char) : Option (List Char) :=
  match afterFirst.reverse.dropWhile (fun c => c ≠ q) with
  | [] => none
  | _ :: revMid => some revMid.reverse

/-- Capture of `q(.*)q` inside one newline-free line: if the line contains at
least two `q`s, everything strictly between the first and the last `q`. -/
def lineQuoteCapture (q : Char) (line : List Char) : Option (List Char) :=
  match line.dropWhile (fun c => c ≠ q) with
  | [] => none
  | _ :: afterFirst => lineQuoteTail q afterFirst

/-- Leftmost-then-greedy match of the unanchored regex `q(.*)q` over the whole
input (with `.` not matching `'\n'`): the first line with two `q`s wins. -/
def quotedCapture (q : Char) (cs : List Char) : Option (List Char) :=
  (splitOnChar '\n' cs).findSome? (lineQuoteCapture q)

end ApiEverywhere

namespace ApiEverywhere.Range

/-! ## `range.rs` -/

/-- `RangeError` of `range.rs`; diagnostic string payloads elided. -/
inductive RangeError where
  | columnAlphabetOutOfRange (c : Char)
  | invalidRangeString
  | invalidRangeDirection
  | invalidSheetName
  | invalidCellRefString
  | invalidRangeRefRow
  deriving DecidableEq, Repr

/-- `ALPHABET`: the 26 upper-case letters. -/
def ALPHABET : List Char :=
  ['A', 'B', 'C', 'D', 'E', 'F', 'G', 'H', 'I', 'J', 'K', 'L', 'M', 'N',
   'O', 'P', 'Q', 'R', 'S', 'T', 'U', 'V', 'W', 'X', 'Y', 'Z']

/-- `alpha_to_num`: `'A' → 0`, …, `'Z' → 25`.  The Rust code tests
`c as u8` (the low byte of the scalar value, `c.toNat % 256`) against
`65..=90` and then returns `c as usize - 65` (the full scalar value). -/
def alpha_to_num (c : Char) : Except RangeError Nat :=
  if c.toNat % 256 < 65 ∨ 90 < c.toNat % 256 then
    .error (.columnAlphabetOutOfRange c)
  else
    .ok (c.toNat - 65)

/-- `prepend_vec`: the unsafe pointer dance shifts every element one slot to
the right (`ptr::copy(head, head.offset(1), vs.len())`), writes `v` at the
head, and bumps the length by one.  Modelled index-by-index. -/
def prepend_vec {α : Type} (v : α) (vs : List α) : List α :=
  List.ofFn (fun i : Fin (vs.length + 1) =>
    match i with
    | ⟨0, _⟩ => v
    | ⟨j + 1, h⟩ => vs.get ⟨j, by omega⟩)

/-- The loop body of `num_to_alphabet_base_number`.  The Rust `loop` runs at
most `n + 1` times (each pass replaces `n` by `n / 26 - 1 < n`), so a fuel of
`n + 1` makes the recursion structural without changing the result. -/
def numToAlphaCore : Nat → Nat → List Char → List Char
  | 0, _, result => result
  | fuel + 1, n, result =>
    let m := n % 26
    let d := n / 26
    let c := ALPHABET.get ⟨m, Nat.mod_lt _ (by decide)⟩
    let result := prepend_vec c result
    if d = 0 then result else numToAlphaCore fuel (d - 1) result

/-- `num_to_alphabet_base_number`: `0 → "A"`, `25 → "Z"`, `26 → "AA"`. -/
def num_to_alphabet_base_number (n : Nat) : List Char :=
  numToAlphaCore (n + 1) n []

/-- The loop of `col_alphabet_to_num`: `digit` starts at the string length
and counts down; the last character contributes its alphabet value, every
earlier one `(value + 1) * 26`. -/
def colAlphaLoop : List Char → Nat → Nat → Except RangeError Nat
  | [], _, result => .ok result
  | c :: rest, digit, result =>
    match alpha_to_num c with
    | .error e => .error e
    | .ok num_at_digit =>
      if digit = 1 then colAlphaLoop rest (digit - 1) (result + num_at_digit)
      else colAlphaLoop rest (digit - 1) (result + (num_at_digit + 1) * 26)

/-- `col_alphabet_to_num`: `"A" → 0`, `"Z" → 25`, `"AA" → 26`. -/
def col_alphabet_to_num (cs : List Char) : Except RangeError Nat :=
  colAlphaLoop cs cs.length 0

/-- `str::parse::<usize>` on a digit capture: fails on the empty string or on
overflow past `usize::MAX` (64-bit). -/
def parse_usize (ds : List Char) : Option Nat :=
  if ds = [] then none
  else
    let n := ds.foldl (fun acc c => acc * 10 + (c.toNat - 48)) 0
    if n < 2 ^ 64 then some n else none

/-- `CellRef`: zero-based column and row indices. -/
structure CellRef where
  col_index : Nat
  row_index : Nat
  deriving DecidableEq, Repr

/-- `CellRef::from_row_and_col`: decode the column letters, parse the 1-based
row digits (a row of `0` is invalid), store the row zero-based. -/
def CellRef.from_row_and_col (col_alpha : List Char) (row_num_str : List Char) :
    Except RangeError CellRef :=
  match col_alphabet_to_num col_alpha with
  | .error e => .error e
  | .ok col_index =>
    match parse_usize row_num_str with
    | none => .error .invalidCellRefString
    | some row_num =>
      if row_num = 0 then .error .invalidCellRefString
      else .ok ⟨col_index, row_num - 1⟩

/-- `CellRef::is_at_left_upper_or_same_as`. -/
def CellRef.is_at_left_upper_or_same_as (a other : CellRef) : Bool :=
  if other.col_index < a.col_index then false
  else if other.row_index < a.row_index then false
  else true

/-- `Display for CellRef`: base-26-letter column followed by the 1-based row. -/
def CellRef.toChars (c : CellRef) : List Char :=
  num_to_alphabet_base_number c.col_index ++ Nat.toDigits 10 (c.row_index + 1)

/-- Unanchored leftmost search of the cell regex `([A-Z]+)([0-9]+)`: the
engine tries every start position left to right; a position matches when its
maximal `[A-Z]` run is immediately followed by a digit (shortening the greedy
run cannot help, because the next character would still be a letter). -/
def searchCellRegex : List Char → Option (List Char × List Char)
  | [] => none
  | c :: rest =>
    if isUpperAZ c then
      let ds := ((c :: rest).dropWhile isUpperAZ).takeWhile isDigit09
      if ds ≠ [] then some ((c :: rest).takeWhile isUpperAZ, ds)
      else searchCellRegex rest
    else searchCellRegex rest

/-- `FromStr for CellRef`: run the cell regex, then `from_row_and_col`. -/
def CellRef.from_str (cs : List Char) : Except RangeError CellRef :=
  match searchCellRegex cs with
  | none => .error .invalidCellRefString
  | some (col, row) => CellRef.from_row_and_col col row

/-- `sanitize_sheet_name`: empty gives `None`; a match of `'(.*)'` unwraps and
replaces the escaped `''` by `'`; otherwise a stray `'` is invalid and a bare
name passes through. -/
def sanitize_sheet_name (cs : List Char) : Except RangeError (Option (List Char)) :=
  if cs = [] then .ok none
  else
    match quotedCapture squote cs with
    | some captured => .ok (some (replace_doubled_squote captured))
    | none =>
      if cs.contains squote then .error .invalidSheetName
      else .ok (some cs)
where
  /-- `String::replace("''", "'")`: leftmost, non-overlapping. -/
  replace_doubled_squote : List Char → List Char
    | [] => []
    | [c] => [c]
    | c1 :: c2 :: rest =>
      if c1 = squote ∧ c2 = squote then squote :: replace_doubled_squote rest
      else c1 :: replace_doubled_squote (c2 :: rest)

/-- `RangeRef`: optional sheet name plus start and end cells. -/
structure RangeRef where
  sheet_name : Option (List Char)
  start : CellRef
  ending : CellRef
  deriving DecidableEq, Repr

/-- `RangeRef::next_row_index`: one past the end row. -/
def RangeRef.next_row_index (r : RangeRef) : Nat := r.ending.row_index + 1

/-- `RangeRef::col_range_indices`. -/
def RangeRef.col_range_indices (r : RangeRef) : Nat × Nat :=
  (r.start.col_index, r.ending.col_index)

/-- `RangeRef::validate`: the start cell must be at or upper-left of the end. -/
def RangeRef.validate (r : RangeRef) : Except RangeError Unit :=
  if !(r.start.is_at_left_upper_or_same_as r.ending) then
    .error .invalidRangeDirection
  else .ok ()

/-- `Display for RangeRef`: with a sheet name, `'{name}'!{start}:{end}` (the
name is written verbatim between the quotes); without, `{start}:{end}`. -/
def RangeRef.toChars (r : RangeRef) : List Char :=
  match r.sheet_name with
  | some name => squote :: name ++ squote :: '!' :: r.start.toChars ++ ':' :: r.ending.toChars
  | none => r.start.toChars ++ ':' :: r.ending.toChars

/-- The trailing part of the range regex,
`!?([A-Z]+)([0-9]+):([A-Z]+)([0-9]+)`, matched at the head of the input
(trailing characters are allowed: the pattern is unanchored on the right).
`!?` deterministically consumes a `!` when present: skipping it would leave
`[A-Z]+` to fail on the `!` itself.  The greedy runs need no backtracking
because the classes `[A-Z]`, `[0-9]`, `:` are pairwise disjoint. -/
def matchRangeTail (cs : List Char) :
    Option (List Char × List Char × List Char × List Char) :=
  let cs1 := match cs with
             | '!' :: rest => rest
             | _ => cs
  let startCol := cs1.takeWhile isUpperAZ
  if startCol = [] then none
  else
    let r1 := cs1.dropWhile isUpperAZ
    let startRow := r1.takeWhile isDigit09
    if startRow = [] then none
    else
      match r1.dropWhile isDigit09 with
      | ':' :: r2 =>
        let endCol := r2.takeWhile isUpperAZ
        if endCol = [] then none
        else
          let r3 := r2.dropWhile isUpperAZ
          let endRow := r3.takeWhile isDigit09
          if endRow = [] then none
          else some (startCol, startRow, endCol, endRow)
      | _ => none

/-- At a fixed start position, the lazy `(?P<SHEET_NAME>.*?)` prefix grows one
non-`'\n'` character at a time, preferring the shortest sheet name whose tail
matches. -/
def searchFromStart : List Char → List Char → Option (List Char × List Char × List Char × List Char × List Char)
  | cs, acc =>
    match matchRangeTail cs with
    | some (sc, sr, ec, er) => some (acc.reverse, sc, sr, ec, er)
    | none =>
      match cs with
      | [] => none
      | c :: rest => if c = '\n' then none else searchFromStart rest (c :: acc)

/-- Unanchored leftmost search of the full range regex
`(?P<SHEET_NAME>.*?)!?([A-Z]+)([0-9]+):([A-Z]+)([0-9]+)`: start positions are
tried left to right, and at each one the lazy prefix prefers the shortest
match. -/
def searchRangeRegex : List Char → Option (List Char × List Char × List Char × List Char × List Char)
  | [] =>
    searchFromStart [] []
  | c :: rest =>
    match searchFromStart (c :: rest) [] with
    | some r => some r
    | none => searchRangeRegex rest

/-- `FromStr for RangeRef`: run the range regex; an empty `SHEET_NAME` capture
gives no sheet name, a non-empty one goes through `sanitize_sheet_name`; both
cells are parsed with `from_row_and_col`; finally `validate` runs. -/
def RangeRef.from_str (cs : List Char) : Except RangeError RangeRef :=
  match searchRangeRegex cs with
  | none => .error .invalidRangeString
  | some (sheetCap, startCol, startRow, endCol, endRow) =>
    match (if sheetCap = [] then .ok none else sanitize_sheet_name sheetCap :
           Except RangeError (Option (List Char))) with
    | .error e => .error e
    | .ok sheet_name =>
      match CellRef.from_row_and_col startCol startRow with
      | .error e => .error e
      | .ok start =>
        match CellRef.from_row_and_col endCol endRow with
        | .error e => .error e
        | .ok ending =>
          match (⟨sheet_name, start, ending⟩ : RangeRef).validate with
          | .error e => .error e
          | .ok _ => .ok (⟨sheet_name, start, ending⟩ : RangeRef)

end ApiEverywhere.Range

namespace ApiEverywhere.Cell

/-! ## `cell.rs` -/

open ApiEverywhere

/-- `CellError`; diagnostic string payload elided. -/
inductive CellError where
  | invalidCellValue
  deriving DecidableEq, Repr

/-- `String::replace("\\\"", "\"")` (two characters backslash-quote become one
quote character): leftmost, non-overlapping. -/
def replace_escaped_quote : List Char → List Char
  | [] => []
  | [c] => [c]
  | c1 :: c2 :: rest =>
    if c1 = '\\' ∧ c2 = dquote then dquote :: replace_escaped_quote rest
    else c1 :: replace_escaped_quote (c2 :: rest)

/-- `Cell::sanitize_str_value`: a match of the regex `"(.*)"` unwraps the
value and replaces each escaped `\"` by `"`; with no match, a value containing
a `"` is invalid, anything else passes through unchanged. -/
def sanitize_str_value (cs : List Char) : Except CellError (List Char) :=
  match quotedCapture dquote cs with
  | some captured => .ok (replace_escaped_quote captured)
  | none =>
    if cs.contains dquote then .error .invalidCellValue
    else .ok cs

end ApiEverywhere.Cell

namespace ApiEverywhere.JsonStructure

/-! ## `json_structure/mod.rs` -/

open ApiEverywhere

/-- A dotted-path segment (`type Key<'a> = &'a str`). -/
abbrev Key := List Char

/-- `JsonStructureError`; diagnostic string payloads elided except the
`(key, idx)` payload of `ValueOutOfRange`.  The extra `keySeqOutOfRangeBug`
constructor models the `panic!` at the top of `add_value_with_key_seq` (the
Rust enum has no such variant: reaching it would crash the process). -/
inductive JsonStructureError where
  | invalidJsonStructureDef
  | invalidKey
  | valueOutOfRange (key : Key) (idx : Nat)
  | invalidStructureState
  | keySeqOutOfRangeBug
  deriving DecidableEq, Repr

/-- `Structure`: the projection-template tree.  The Rust `Object` struct
(`keys: Vec<Key>`, `values: HashMap<Key, Structure>`) appears here as the
`object` constructor holding the key-order vector and the map as an
association list (association order never influences results: all reads go
through `lookupA`). -/
inductive Structure where
  | object (keys : List Key) (values : List (Key × Structure))
  | array (key : Key) (indices : List Nat)
  | value (key : Key) (index : Nat)

/-- The `keys`/`values` pair of a Rust `Object`. -/
abbrev ObjState := List Key × List (Key × Structure)

/-- `HashMap::get` on the association-list model. -/
def lookupA : List (Key × Structure) → Key → Option Structure
  | [], _ => none
  | (k, v) :: rest, key => if k = key then some v else lookupA rest key

/-- `HashMap::insert` on the association-list model: replace in place or
append. -/
def insertA : List (Key × Structure) → Key → Structure → List (Key × Structure)
  | [], key, v => [(key, v)]
  | (k, w) :: rest, key, v =>
    if k = key then (key, v) :: rest else (k, w) :: insertA rest key v

/-- `Object::contains_key`. -/
def containsA (m : List (Key × Structure)) (key : Key) : Bool :=
  (lookupA m key).isSome

/-- `Object::inner_add`: insert into the map, pushing the key onto the order
vector only when it is new. -/
def inner_add (st : ObjState) (key : Key) (v : Structure) : ObjState :=
  if containsA st.2 key then (st.1, insertA st.2 key v)
  else (st.1 ++ [key], insertA st.2 key v)

/-- `Object::add_value_with_key_seq`.  The `[]` case is the `panic!` branch
(`key_seq.len() <= key_idx`); the walk is modelled on the key-sequence suffix
from `key_idx`, and the `get_mut`-based in-place mutations of the Rust code
become `insertA` replacements. -/
def add_value_with_key_seq : List Key → Nat → ObjState → Except JsonStructureError ObjState
  | [], _, _ => .error .keySeqOutOfRangeBug
  | [current_key], idx, (keys, vals) =>
    match lookupA vals current_key with
    | none => .ok (inner_add (keys, vals) current_key (.value current_key idx))
    | some (.object _ _) => .error .invalidJsonStructureDef
    | some (.array key arr) => .ok (keys, insertA vals current_key (.array key (arr ++ [idx])))
    | some (.value key existing_idx) =>
      .ok (inner_add (keys, vals) current_key (.array key [existing_idx, idx]))
  | current_key :: k2 :: krest, idx, (keys, vals) =>
    match lookupA vals current_key with
    | none =>
      match add_value_with_key_seq (k2 :: krest) idx ([], []) with
      | .error e => .error e
      | .ok (nkeys, nvals) =>
        .ok (inner_add (keys, vals) current_key (.object nkeys nvals))
    | some (.object okeys ovals) =>
      match add_value_with_key_seq (k2 :: krest) idx (okeys, ovals) with
      | .error e => .error e
      | .ok (nkeys, nvals) => .ok (keys, insertA vals current_key (.object nkeys nvals))
    | some (.array _ _) => .error .invalidJsonStructureDef
    | some (.value _ _) => .error .invalidJsonStructureDef

/-- `split_keys`: split the label on `.` and trim each segment. -/
def split_keys (keys : List Char) : List Key :=
  (splitOnChar '.' keys).map trimChars

/-- `Object::add_value`: split the label, reject an empty sequence or an empty
segment, then walk from segment 0.  (The Rust code binds `key_seq` once; it is
repeated here to keep the definition `let`-free.) -/
def add_value (st : ObjState) (key : List Char) (idx : Nat) :
    Except JsonStructureError ObjState :=
  if (split_keys key).isEmpty then .error .invalidKey
  else if (split_keys key).any (fun e => e.isEmpty) then .error .invalidKey
  else add_value_with_key_seq (split_keys key) idx st

/-- The `enumerate` loop of `Object::from_strs`. -/
def from_strs_loop : List (List Char) → Nat → ObjState → Except JsonStructureError ObjState
  | [], _, st => .ok st
  | s :: rest, idx, st =>
    match add_value st s idx with
    | .error e => .error e
    | .ok st2 => from_strs_loop rest (idx + 1) st2

/-- `Object::from_strs`: fold `add_value` over the labels with their indices. -/
def from_strs (strs : List (List Char)) : Except JsonStructureError ObjState :=
  from_strs_loop strs 0 ([], [])

/-- JSON documents, as produced by `JsonValueRef::into_json_value` /
serialization.  Row cells (`serde_json::Value`) are modelled as `Json` too;
the claims only exercise string scalars. -/
inductive Json where
  | str (s : List Char)
  | arr (vs : List Json)
  | obj (fields : List (Key × Json))

/-- The index-collection loop of the `Structure::Array` arm of `build_json`. -/
def collectArr (key : Key) : List Nat → List Json → Except JsonStructureError (List Json)
  | [], _ => .ok []
  | i :: is, values =>
    match values.get? i with
    | none => .error (.valueOutOfRange key i)
    | some v =>
      match collectArr key is values with
      | .error e => .error e
      | .ok rest => .ok (v :: rest)

mutual

/-- A computable size of a template tree, used as recursion fuel for
`build_json`: an object counts one plus its key-vector length plus the size
of its association list. -/
def structureSize : Structure → Nat
  | .object keys vals => 1 + keys.length + structureListSize vals
  | .array _ _ => 1
  | .value _ _ => 1

/-- Size of an association list of sub-templates. -/
def structureListSize : List (Key × Structure) → Nat
  | [] => 1
  | (_, s) :: rest => 1 + structureSize s + structureListSize rest

end

mutual

/-- The recursive walk of `Structure::build_json` (with `Object::build_json`
for the `object` arm), made structurally recursive on an explicit fuel
counter so that it evaluates by kernel reduction.  Every recursive call
strictly decrements the fuel.  The wrapper `build_json` supplies
`structureSize s` fuel, which is never exhausted: by induction, `fuel ≥
structureSize s` suffices for the walk of `s`, and `fuel ≥ ks.length +
structureListSize vals` for the field loop — an object hands its loop
`keys.length + structureListSize vals` fuel, the loop hands each looked-up
sub-structure at least `structureListSize vals - 1 > structureSize sub` fuel
and its own tail one less than it received. -/
def buildJsonFuel : Nat → Structure → List Json → Except JsonStructureError Json
  | 0, _, _ => .error .invalidStructureState
  | _ + 1, .value key index, values =>
    match values.get? index with
    | none => .error (.valueOutOfRange key index)
    | some v => .ok v
  | _ + 1, .array key indices, values =>
    match collectArr key indices values with
    | .error e => .error e
    | .ok collected => .ok (.arr collected)
  | fuel + 1, .object keys vals, values =>
    match buildJsonFieldsFuel fuel keys vals values with
    | .error e => .error e
    | .ok fields => .ok (.obj fields)

/-- The key-ordered field loop of `Object::build_json`: iterate the key-order
vector, look each key up in the map, and recurse. -/
def buildJsonFieldsFuel : Nat → List Key → List (Key × Structure) → List Json →
    Except JsonStructureError (List (Key × Json))
  | 0, _, _, _ => .error .invalidStructureState
  | _ + 1, [], _, _ => .ok []
  | fuel + 1, k :: ks, vals, values =>
    match lookupA vals k with
    | none => .error .invalidStructureState
    | some sub =>
      match buildJsonFuel fuel sub values with
      | .error e => .error e
      | .ok j =>
        match buildJsonFieldsFuel fuel ks vals values with
        | .error e => .error e
        | .ok rest => .ok ((k, j) :: rest)

end

/-- `Structure::build_json`: project one row of cell values through the
template. -/
def build_json (s : Structure) (values : List Json) : Except JsonStructureError Json :=
  buildJsonFuel (structureSize s) s values

end ApiEverywhere.JsonStructure

namespace ApiEverywhere.SpreadSheet

/-! ## `api/operation.rs`, `sheet.rs`, `header.rs`, `value.rs` and `mod.rs`

The HTTP calls themselves (`get_sheet`, `get_sheet_value`) are external I/O;
the pure logic around them is embedded by abstracting each remote call as an
explicit argument: `HeaderSearchCondition.create` takes the already-fetched
metadata result, and `fetch_sheet_value` takes the header-fetch result plus a
`gateway` function standing for the value-range call. -/

open ApiEverywhere ApiEverywhere.Range

/-- `GridProperties` of `api/operation.rs`. -/
structure GridProperties where
  row_count : Nat
  column_count : Nat
  frozen_row_count : Option Nat
  frozen_column_count : Option Nat
  hide_gridlines : Option Bool
  row_group_control_after : Option Bool
  column_group_control_after : Option Bool
  deriving DecidableEq, Repr

/-- `SheetPropertyData` of `api/operation.rs`. -/
structure SheetPropertyData where
  sheet_id : Nat
  title : List Char
  index : Nat
  sheet_type : List Char
  grid_properties : GridProperties
  deriving DecidableEq, Repr

/-- `SheetProperty` of `api/operation.rs`. -/
structure SheetProperty where
  properties : SheetPropertyData
  deriving DecidableEq, Repr

/-- `Sheet` of `api/operation.rs`: the fetched per-spreadsheet metadata. -/
structure Sheet where
  spreadsheet_id : List Char
  sheets : List SheetProperty
  deriving DecidableEq, Repr

/-- `Sheet::find_property_by_id`. -/
def Sheet.find_property_by_id (s : Sheet) (sheet_id : Nat) : Option SheetProperty :=
  s.sheets.find? (fun e => e.properties.sheet_id == sheet_id)

/-- `Sheet::find_property_by_name`: `None` selects the first sheet. -/
def Sheet.find_property_by_name (s : Sheet) (name : Option (List Char)) :
    Option SheetProperty :=
  match name with
  | none => s.sheets.get? 0
  | some n => s.sheets.find? (fun e => e.properties.title == n)

/-- `SheetApiError` of `api/mod.rs`; payloads elided. -/
inductive SheetApiError where
  | reqwestError
  | badReqestError
  | spreadSheetNotFoundError
  deriving DecidableEq, Repr

/-- `SheetApiError::is_not_found`. -/
def SheetApiError.is_not_found : SheetApiError → Bool
  | .spreadSheetNotFoundError => true
  | _ => false

/-- `SheetIdOrName` of `sheet.rs`. -/
structure SheetIdOrName where
  tab_sheet_id : Option Nat
  tab_sheet_name : Option (List Char)
  deriving DecidableEq, Repr

/-- `SheetIdOrName::is_need_get_sheet_name_by_id`: only a present numeric tab
id other than `0`, with no name given, requires an id→name lookup. -/
def SheetIdOrName.is_need_get_sheet_name_by_id (s : SheetIdOrName) : Option Nat :=
  match s.tab_sheet_name with
  | some _ => none
  | none =>
    match s.tab_sheet_id with
    | some sheet_id => if sheet_id ≠ 0 then some sheet_id else none
    | none => none

/-- `SheetIdOrName::sheet_name`. -/
def SheetIdOrName.sheet_name (s : SheetIdOrName) : Option (List Char) :=
  s.tab_sheet_name

/-- `SheetMeta` of `sheet.rs`. -/
structure SheetMeta where
  spread_sheet_id : List Char
  sheet_id_or_name : SheetIdOrName
  deriving DecidableEq, Repr

/-- `CellError` re-exported for the `HeaderError::CellError(#[from] …)`
variant. -/
abbrev CellError := ApiEverywhere.Cell.CellError

/-- `HeaderError` of `header.rs`; diagnostic string payloads elided. -/
inductive HeaderError where
  | fetchSheetInfoError
  | fetchSheetNameError
  | spreadSheetNotFound
  | unsupportedMultipleHeader
  | fetchHeaderApiError
  | emptyHeaderValueRanges
  | invalidRangeRefInReturnedValue
  | emptyHeaderValues
  | cellError (e : CellError)
  | unknwonError
  deriving DecidableEq, Repr

/-- `HeaderError::is_not_found`: only `SpreadSheetNotFound` counts. -/
def HeaderError.is_not_found : HeaderError → Bool
  | .spreadSheetNotFound => true
  | _ => false

/-- `ValueError` of `value.rs`; numeric payloads kept, strings elided. -/
inductive ValueError where
  | fetchValueApiError
  | spreadSheetNotFound
  | invalidRowNumber (start_row : Nat) (end_row : Nat)
  | invalidColRange (start_col : Nat) (end_col : Nat)
  | tooManyRowNumber (max : Nat) (passed : Nat)
  deriving DecidableEq, Repr

/-- `ValueError::is_not_found`. -/
def ValueError.is_not_found : ValueError → Bool
  | .spreadSheetNotFound => true
  | _ => false

/-- `SpreadSheetError` of `mod.rs`. -/
inductive SpreadSheetError where
  | headerError (e : HeaderError)
  | valueError (e : ValueError)
  deriving DecidableEq, Repr

/-- `SpreadSheetError::is_not_found`: delegates to the wrapped error. -/
def SpreadSheetError.is_not_found : SpreadSheetError → Bool
  | .headerError e => e.is_not_found
  | .valueError e => e.is_not_found

/-- `HeaderSearchCondition` of `header.rs`. -/
structure HeaderSearchCondition where
  spread_sheet_id : List Char
  sheet_name : Option (List Char)
  specified_cell_range : Option (CellRef × CellRef)
  sheet_info : Sheet
  deriving DecidableEq, Repr

/-- `HeaderSearchCondition::create`, with the awaited
`api::get_sheet(client, token_manager, &spread_sheet_id)` result passed in as
`sheet_info_result`.  A not-found gateway failure becomes
`SpreadSheetNotFound`, any other gateway failure `FetchSheetInfoError`.  A
needed id→name resolution that finds no property fails with
`FetchSheetNameError`. -/
def HeaderSearchCondition.create (sheet_info_result : Except SheetApiError Sheet)
    (meta : SheetMeta) (specified_cell_range : Option (CellRef × CellRef)) :
    Except HeaderError HeaderSearchCondition :=
  match sheet_info_result with
  | .error e =>
    .error (if e.is_not_found then .spreadSheetNotFound else .fetchSheetInfoError)
  | .ok sheet_info =>
    match meta.sheet_id_or_name.is_need_get_sheet_name_by_id with
    | some sheet_id =>
      match (sheet_info.find_property_by_id sheet_id).map
          (fun prop => prop.properties.title) with
      | some title =>
        .ok ⟨meta.spread_sheet_id, some title, specified_cell_range, sheet_info⟩
      | none => .error .fetchSheetNameError
    | none =>
      .ok ⟨meta.spread_sheet_id, meta.sheet_id_or_name.sheet_name,
           specified_cell_range, sheet_info⟩

/-- `RecordHeader` of `header.rs`: one sanitized header label. -/
structure RecordHeader where
  label : List Char
  deriving DecidableEq, Repr

/-- `RawHeaders` of `header.rs`: the resolved header range and labels. -/
structure RawHeaders where
  range : RangeRef
  values : List RecordHeader
  deriving DecidableEq, Repr

/-- `DEFAULT_ROW_NUMBER_TO_READ_AT_ONCE` of `value.rs`. -/
def DEFAULT_ROW_NUMBER_TO_READ_AT_ONCE : Nat := 100

/-- `MAX_ROW_NUMBER_TO_READ_AT_ONCE` of `value.rs` (without the `restricted`
build feature). -/
def MAX_ROW_NUMBER_TO_READ_AT_ONCE : Nat := 10000

/-- Row cell values carried by `RowValues` (`CellValue(JsonValue)`). -/
abbrev CellValue := ApiEverywhere.JsonStructure.Json

/-- `RowValues` of `value.rs`. -/
structure RowValues where
  values : List (List CellValue)

/-- `RowValues::empty`. -/
def RowValues.empty : RowValues := ⟨[]⟩

/-- `ReadValueOption` of `value.rs`. -/
structure ReadValueOption where
  spread_sheet_id : List Char
  sheet_name : Option (List Char)
  col_range : Nat × Nat
  start_row_idx : Nat
  end_row_idx : Nat

/-- `ReadValueOption::validate`: the signed row count `end - start` must be
non-negative and at most the fixed maximum. -/
def ReadValueOption.validate (o : ReadValueOption) : Except ValueError Unit :=
  if o.end_row_idx < o.start_row_idx then
    .error (.invalidRowNumber o.start_row_idx o.end_row_idx)
  else if MAX_ROW_NUMBER_TO_READ_AT_ONCE < o.end_row_idx - o.start_row_idx then
    .error (.tooManyRowNumber MAX_ROW_NUMBER_TO_READ_AT_ONCE
              (o.end_row_idx - o.start_row_idx))
  else .ok ()

/-- `RowValues::read_values`, with the remote `get_sheet_value` call (plus the
response decoding and right-padding of short rows) abstracted as `gateway`:
the locally-computed validation runs first, then the column sanity check, then
the gateway. -/
def read_values (gateway : ReadValueOption → Except ValueError RowValues)
    (option : ReadValueOption) : Except ValueError RowValues :=
  match option.validate with
  | .error e => .error e
  | .ok _ =>
    let (start_col, end_col) := option.col_range
    if end_col < start_col then .error (.invalidColRange start_col end_col)
    else gateway option

/-- `Pagination` of `mod.rs`. -/
structure Pagination where
  offset : Option Nat
  limit : Option Nat
  deriving DecidableEq, Repr

/-- `FetchRowCondition` of `mod.rs`. -/
structure FetchRowCondition where
  specific_row_idx : Option Nat
  pagination : Option Pagination
  deriving DecidableEq, Repr

/-- `FetchRowCondition::with_specific_row_idx`. -/
def FetchRowCondition.with_specific_row_idx (row_idx : Nat) : FetchRowCondition :=
  ⟨some row_idx, none⟩

/-- `FetchRowCondition::with_pagination`. -/
def FetchRowCondition.with_pagination (offset limit : Option Nat) : FetchRowCondition :=
  ⟨none, some ⟨offset, limit⟩⟩

/-- `SheetValueResponse` of `mod.rs`. -/
structure SheetValueResponse where
  headers : RawHeaders
  row_values : RowValues
  pagination : Option Pagination

/-- `SheetValueResponse::is_empty`. -/
def SheetValueResponse.is_empty (r : SheetValueResponse) : Bool :=
  r.row_values.values.isEmpty

/-- The row-window `let`-block of `fetch_sheet_value`: a specific row index
gives a one-row window at `next_row_index + idx` with no pagination echo;
otherwise start `= next_row_index + offset` (offset default `0`), finish
`= start + limit` (limit default `DEFAULT_ROW_NUMBER_TO_READ_AT_ONCE`), and
the effective offset/limit are echoed back. -/
def fetch_row_window (headers_range : RangeRef) (cond : FetchRowCondition) :
    Nat × Nat × Option Pagination :=
  match cond.specific_row_idx with
  | some specific_row_idx =>
    let row_idx := headers_range.next_row_index + specific_row_idx
    (row_idx, row_idx, none)
  | none =>
    let (offset, limit) :=
      match cond.pagination with
      | none => (0, DEFAULT_ROW_NUMBER_TO_READ_AT_ONCE)
      | some pagination =>
        (pagination.offset.getD 0,
         pagination.limit.getD DEFAULT_ROW_NUMBER_TO_READ_AT_ONCE)
    let start_row_idx := headers_range.next_row_index + offset
    (start_row_idx, start_row_idx + limit, some ⟨some offset, some limit⟩)

/-- `fetch_sheet_value` of `mod.rs`, with the header resolution
(`RawHeaders::read_raw_headers`) passed in as `headers_result` and the value
fetch abstracted as `gateway`.  When the computed start row is at or past the
sheet's reported row count, an explicitly empty response is returned without
consulting the gateway. -/
def fetch_sheet_value (gateway : ReadValueOption → Except ValueError RowValues)
    (headers_result : Except HeaderError RawHeaders)
    (header_search_condition : HeaderSearchCondition)
    (row_serach_condition : FetchRowCondition) :
    Except SpreadSheetError SheetValueResponse :=
  match headers_result with
  | .error e => .error (.headerError e)
  | .ok headers =>
    let value_col_range := headers.range.col_range_indices
    let (start_row_idx, finish_row_idx, pagination_in_response) :=
      fetch_row_window headers.range row_serach_condition
    match header_search_condition.sheet_info.find_property_by_name
        header_search_condition.sheet_name with
    | none => .error (.headerError .unknwonError)
    | some property =>
      let max_row_count_of_grid := property.properties.grid_properties.row_count
      if max_row_count_of_grid ≤ start_row_idx then
        .ok ⟨headers, RowValues.empty, pagination_in_response⟩
      else
        let value_option : ReadValueOption :=
          ⟨header_search_condition.spread_sheet_id,
           header_search_condition.sheet_name,
           value_col_range, start_row_idx, finish_row_idx⟩
        match read_values gateway value_option with
        | .error e => .error (.valueError e)
        | .ok row_values => .ok ⟨headers, row_values, pagination_in_response⟩

end ApiEverywhere.SpreadSheet

namespace ApiEverywhere

open ApiEverywhere.Range

/-! ## Shared helper lemmas -/

/-- The index-shifting model of `prepend_vec` produces exactly `v :: vs`. -/
theorem prepend_vec_eq_cons {α : Type} (v : α) (vs : List α) :
    prepend_vec v vs = v :: vs := by
  unfold prepend_vec
  rw [List.ofFn_succ]
  congr 1
  conv_rhs => rw [← List.ofFn_get vs]
  congr 1

/-- Characters in the regex class `[A-Z]` have scalar values in `65..=90`. -/
theorem isUpperAZ_toNat {c : Char} (h : isUpperAZ c = true) :
    65 ≤ c.toNat ∧ c.toNat ≤ 90 := by
  simp only [isUpperAZ, Bool.and_eq_true, decide_eq_true_eq, Char.le_def] at h
  exact h

/-- On a letter in `A..=Z`, `alpha_to_num` succeeds with the scalar value
minus 65. -/
theorem alpha_to_num_of_upper {c : Char} (h : isUpperAZ c = true) :
    alpha_to_num c = .ok (c.toNat - 65) := by
  obtain ⟨h1, h2⟩ := isUpperAZ_toNat h
  have hm : c.toNat % 256 = c.toNat := Nat.mod_eq_of_lt (by omega)
  unfold alpha_to_num
  rw [hm]
  rw [if_neg (by omega)]

/-- The digit rule stated by the spec for decoding a column-letter string:
the last letter contributes its 0-based alphabet value, every earlier letter
`(value + 1) * 26`.  (Transcribed from the spec sentence, to be compared with
`col_alphabet_to_num`.) -/
def decode_digit_rule : List Char → Nat
  | [] => 0
  | [c] => c.toNat - 65
  | c :: rest => ((c.toNat - 65) + 1) * 26 + decode_digit_rule rest

/-- One step of the `col_alphabet_to_num` loop on a non-last letter. -/
theorem colAlphaLoop_cons (c : Char) (rest : List Char) (digit acc : Nat)
    (hc : isUpperAZ c = true) (hd : digit ≠ 1) :
    colAlphaLoop (c :: rest) digit acc =
      colAlphaLoop rest (digit - 1) (acc + ((c.toNat - 65) + 1) * 26) := by
  simp only [colAlphaLoop, alpha_to_num_of_upper hc, if_neg hd]

/-- The loop of `col_alphabet_to_num` computes the spec's digit rule, for any
accumulator, on non-empty all-uppercase input. -/
theorem colAlphaLoop_digit_rule :
    ∀ (cs : List Char) (acc : Nat), cs ≠ [] → (∀ c ∈ cs, isUpperAZ c = true) →
      colAlphaLoop cs cs.length acc = .ok (acc + decode_digit_rule cs)
  | [], _, hne, _ => absurd rfl hne
  | [c], acc, _, hall => by
    have hc := hall c (by simp)
    simp [colAlphaLoop, alpha_to_num_of_upper hc, decode_digit_rule]
  | c :: c2 :: rest, acc, _, hall => by
    have hc := hall c (by simp)
    have hd : (c :: c2 :: rest).length ≠ 1 := by simp
    have step := colAlphaLoop_cons c (c2 :: rest) (c :: c2 :: rest).length acc hc hd
    have hlen : (c :: c2 :: rest).length - 1 = (c2 :: rest).length := by simp
    rw [hlen] at step
    have ih := colAlphaLoop_digit_rule (c2 :: rest) (acc + ((c.toNat - 65) + 1) * 26)
      (by simp) (fun x hx => hall x (by simp [hx]))
    rw [step, ih]
    have hdr : decode_digit_rule (c :: c2 :: rest)
        = ((c.toNat - 65) + 1) * 26 + decode_digit_rule (c2 :: rest) := rfl
    rw [hdr]
    exact congrArg Except.ok (by omega)

/-- The head of a non-empty `dropWhile` result fails the predicate. -/
theorem dropWhile_head_false {α : Type} (p : α → Bool) :
    ∀ (l : List α) (c : α) (cs : List α), l.dropWhile p = c :: cs → p c = false
  | [], _, _, h => by simp at h
  | a :: t, c, cs, h => by
    simp only [List.dropWhile_cons] at h
    split at h
    · exact dropWhile_head_false p t c cs h
    · rename_i hp
      cases h
      simpa using hp

/-- `splitOnChar` never returns the empty list of pieces. -/
theorem splitOnChar_ne_nil (sep : Char) : ∀ (cs : List Char), splitOnChar sep cs ≠ []
  | [] => by simp [splitOnChar]
  | c :: rest => by
    simp only [splitOnChar]
    split
    · simp
    · cases hsp : splitOnChar sep rest <;> simp

/-- Every piece produced by `splitOnChar` is a sublist of the input. -/
theorem mem_splitOnChar_sublist (sep : Char) :
    ∀ (cs l : List Char), l ∈ splitOnChar sep cs → l.Sublist cs
  | [], l, h => by
    simp only [splitOnChar, List.mem_singleton] at h
    simp [h]
  | c :: rest, l, h => by
    simp only [splitOnChar] at h
    split at h
    · rcases List.mem_cons.mp h with h1 | h2
      · simp [h1]
      · exact (mem_splitOnChar_sublist sep rest l h2).cons c
    · cases hsp : splitOnChar sep rest with
      | nil => exact absurd hsp (splitOnChar_ne_nil sep rest)
      | cons p ps =>
        rw [hsp] at h
        rcases List.mem_cons.mp h with h1 | h2
        · subst h1
          have hp : p.Sublist rest :=
            mem_splitOnChar_sublist sep rest p (by rw [hsp]; simp)
          exact hp.cons₂ c
        · have hl : l.Sublist rest :=
            mem_splitOnChar_sublist sep rest l (by rw [hsp]; simp [h2])
          exact hl.cons c

/-- On input free of the separator, `splitOnChar` returns one piece: the whole
input. -/
theorem splitOnChar_no_sep (sep : Char) :
    ∀ (cs : List Char), (∀ c ∈ cs, c ≠ sep) → splitOnChar sep cs = [cs]
  | [], _ => rfl
  | c :: rest, h => by
    have hc : c ≠ sep := h c (by simp)
    simp only [splitOnChar, if_neg hc]
    rw [splitOnChar_no_sep sep rest (fun x hx => h x (by simp [hx]))]

/-- A line holding at most one `q` yields no `q(.*)q` capture. -/
theorem lineQuoteCapture_eq_none {q : Char} {line : List Char}
    (h : line.countP (fun c => c = q) ≤ 1) : lineQuoteCapture q line = none := by
  unfold lineQuoteCapture
  cases hd : line.dropWhile (fun c => c ≠ q) with
  | nil => rfl
  | cons c0 afterFirst =>
    have hc0 : c0 = q := by
      have hh := dropWhile_head_false (fun c => c ≠ q) line c0 afterFirst hd
      simpa using hh
    have hline : line = line.takeWhile (fun c => c ≠ q) ++ (c0 :: afterFirst) := by
      rw [← hd]
      exact (List.takeWhile_append_dropWhile _ _).symm
    have htake : (line.takeWhile (fun c => c ≠ q)).countP (fun c => c = q) = 0 := by
      rw [List.countP_eq_zero]
      intro a ha
      have hmem := List.mem_takeWhile_imp ha
      simpa using hmem
    have hafter : afterFirst.countP (fun c => c = q) = 0 := by
      have h2 : line.countP (fun c => c = q)
          = (line.takeWhile (fun c => c ≠ q)).countP (fun c => c = q)
            + (c0 :: afterFirst).countP (fun c => c = q) := by
        conv_lhs => rw [hline]
        rw [List.countP_append]
      rw [h2, htake, List.countP_cons] at h
      simp [hc0] at h
      rw [List.countP_eq_zero]
      intro a ha
      simpa using h a ha
    have hnone : afterFirst.reverse.dropWhile (fun c => c ≠ q) = [] := by
      rw [List.dropWhile_eq_nil_iff]
      intro x hx
      have hx' : x ∈ afterFirst := List.mem_reverse.mp hx
      have hne : ¬(x = q) := by
        have h0 := List.countP_eq_zero.mp hafter x hx'
        simpa using h0
      simp [hne]
    show lineQuoteTail q afterFirst = none
    unfold lineQuoteTail
    rw [hnone]

/-- An input holding at most one `q` has no `q(.*)q` match. -/
theorem quotedCapture_eq_none {q : Char} {cs : List Char}
    (h : cs.countP (fun c => c = q) ≤ 1) : quotedCapture q cs = none := by
  unfold quotedCapture
  rw [List.findSome?_eq_none_iff]
  intro line hline
  apply lineQuoteCapture_eq_none
  exact le_trans ((mem_splitOnChar_sublist _ _ _ hline).countP_le _) h

/-- The quoted capture of an explicitly wrapped single line is the inner
text. -/
theorem lineQuoteCapture_wrapped (q : Char) (inner : List Char) :
    lineQuoteCapture q (q :: (inner ++ [q])) = some inner := by
  unfold lineQuoteCapture
  have h1 : ((q :: (inner ++ [q])).dropWhile fun c => c ≠ q) = q :: (inner ++ [q]) := by
    simp [List.dropWhile_cons]
  rw [h1]
  show lineQuoteTail q (inner ++ [q]) = some inner
  unfold lineQuoteTail
  have h2 : (inner ++ [q]).reverse = q :: inner.reverse := by simp
  rw [h2]
  have h3 : ((q :: inner.reverse).dropWhile fun c => c ≠ q) = q :: inner.reverse := by
    simp [List.dropWhile_cons]
  rw [h3]
  simp

/-- Dropping while a predicate holds skips a prefix on which it holds
everywhere. -/
theorem dropWhile_append_of_all {α : Type} (p : α → Bool) :
    ∀ (xs ys : List α), (∀ x ∈ xs, p x = true) →
      (xs ++ ys).dropWhile p = ys.dropWhile p
  | [], _, _ => rfl
  | x :: xs, ys, h => by
    have hx : p x = true := h x (by simp)
    simp only [List.cons_append, List.dropWhile_cons, hx, if_true]
    exact dropWhile_append_of_all p xs ys (fun a ha => h a (by simp [ha]))

/-- On a line whose quotes need not wrap it, the `q(.*)q` capture is
everything between the first and the last `q`: with `pre` and `post` free of
`q`, the capture of `pre ++ q :: mid ++ q :: post` is `mid`. -/
theorem lineQuoteCapture_mid (q : Char) (pre mid post : List Char)
    (hpre : q ∉ pre) (hpost : q ∉ post) :
    lineQuoteCapture q (pre ++ q :: (mid ++ q :: post)) = some mid := by
  unfold lineQuoteCapture
  have h1 : ((pre ++ q :: (mid ++ q :: post)).dropWhile fun c => c ≠ q)
      = q :: (mid ++ q :: post) := by
    rw [dropWhile_append_of_all _ pre _
      (fun x hx => by
        have hne : x ≠ q := fun hxq => hpre (hxq ▸ hx)
        simpa using hne)]
    simp [List.dropWhile_cons]
  rw [h1]
  show lineQuoteTail q (mid ++ q :: post) = some mid
  unfold lineQuoteTail
  have h2 : (mid ++ q :: post).reverse = post.reverse ++ q :: mid.reverse := by
    simp
  rw [h2]
  have h3 : ((post.reverse ++ q :: mid.reverse).dropWhile fun c => c ≠ q)
      = q :: mid.reverse := by
    rw [dropWhile_append_of_all _ post.reverse _
      (fun x hx => by
        have hxp : x ∈ post := List.mem_reverse.mp hx
        have hne : x ≠ q := fun hxq => hpost (hxq ▸ hxp)
        simpa using hne)]
    simp [List.dropWhile_cons]
  rw [h3]
  simp

/-- The full `q(.*)q` search on a newline-free input whose quotes need not
wrap it: with `pre` and `post` free of `q`, the capture of
`pre ++ q :: mid ++ q :: post` is `mid`. -/
theorem quotedCapture_mid {q : Char} (hq : q ≠ '\n') (pre mid post : List Char)
    (hnl_pre : '\n' ∉ pre) (hnl_mid : '\n' ∉ mid) (hnl_post : '\n' ∉ post)
    (hpre : q ∉ pre) (hpost : q ∉ post) :
    quotedCapture q (pre ++ q :: (mid ++ q :: post)) = some mid := by
  unfold quotedCapture
  have hsplit : splitOnChar '\n' (pre ++ q :: (mid ++ q :: post))
      = [pre ++ q :: (mid ++ q :: post)] := by
    apply splitOnChar_no_sep
    intro c hc
    intro hcn
    subst hcn
    rcases List.mem_append.mp hc with h1 | h2
    · exact hnl_pre h1
    · rcases List.mem_cons.mp h2 with h3 | h4
      · exact hq h3.symm
      · rcases List.mem_append.mp h4 with h5 | h6
        · exact hnl_mid h5
        · rcases List.mem_cons.mp h6 with h7 | h8
          · exact hq h7.symm
          · exact hnl_post h8
  rw [hsplit]
  rw [List.findSome?_cons]
  rw [lineQuoteCapture_mid q pre mid post hpre hpost]

/-- On a newline-free wrapped input the full `q(.*)q` search captures the
inner text. -/
theorem quotedCapture_wrapped {q : Char} (hq : q ≠ '\n') (inner : List Char)
    (hnl : '\n' ∉ inner) : quotedCapture q (q :: (inner ++ [q])) = some inner := by
  unfold quotedCapture
  have hsplit : splitOnChar '\n' (q :: (inner ++ [q])) = [q :: (inner ++ [q])] := by
    apply splitOnChar_no_sep
    intro c hc
    rcases List.mem_cons.mp hc with h1 | h2
    · simpa [h1] using hq
    · rcases List.mem_append.mp h2 with h3 | h4
      · intro hcn
        exact hnl (hcn ▸ h3)
      · simp only [List.mem_singleton] at h4
        simpa [h4] using hq
  rw [hsplit]
  rw [List.findSome?_cons]
  rw [lineQuoteCapture_wrapped]

/-! ## C5 -/

/-- C5 counterexample: the claim fails as stated at two concrete inputs.
First, it says every value wrapped in a single leading/trailing double-quote
pair is unwrapped, but on the wrapped value whose inner text is `a\nb` the
code returns an `InvalidCellValue` error instead (the regex `.` does not
match `'\n'`).  Second, it says a value containing a bare, non-fully-wrapped
quote character is an error, but on `a"b"c` and `"a"b` — whose quotes are
bare in the sense of not wrapping the whole value — the unanchored regex
matches between the first and the last quote and the code returns `Ok "b"` /
`Ok "a"` instead of an error. -/
theorem C5_counterexample :
    (Cell.sanitize_str_value (dquote :: (('a' :: '\n' :: 'b' :: []) ++ [dquote]))
       = .error .invalidCellValue ∧
     Cell.sanitize_str_value (dquote :: (('a' :: '\n' :: 'b' :: []) ++ [dquote]))
       ≠ .ok ('a' :: '\n' :: 'b' :: [])) ∧
    (Cell.sanitize_str_value ['a', dquote, 'b', dquote, 'c'] = .ok ['b'] ∧
     Cell.sanitize_str_value ['a', dquote, 'b', dquote, 'c']
       ≠ .error .invalidCellValue) ∧
    (Cell.sanitize_str_value [dquote, 'a', dquote, 'b'] = .ok ['a'] ∧
     Cell.sanitize_str_value [dquote, 'a', dquote, 'b']
       ≠ .error .invalidCellValue) := by
  decide

/-- C5 (amended): `Cell::sanitize_str_value` unwraps a value wrapped in a
single leading/trailing double-quote pair whenever the inner text contains no
newline, replacing each internal escaped quote `\"` by a literal quote; more
generally, on a newline-free value whose quotes need not wrap it, the text
between the first and the last quote is extracted (so `a"b"c` gives `b` and
`"a"b` gives `a`, not errors); a value containing a quote character but no
two quotes within one line — in particular a value with a single bare
quote — is an error; quote-free text (empty or ordinary) passes through
unchanged; and the four literal cases hold, including the trailing space kept
inside the quotes. -/
theorem C5_sanitize_str_value :
    (∀ inner : List Char, '\n' ∉ inner →
      Cell.sanitize_str_value (dquote :: (inner ++ [dquote]))
        = .ok (Cell.replace_escaped_quote inner)) ∧
    (∀ pre mid post : List Char,
      '\n' ∉ pre → '\n' ∉ mid → '\n' ∉ post → dquote ∉ pre → dquote ∉ post →
      Cell.sanitize_str_value (pre ++ dquote :: (mid ++ dquote :: post))
        = .ok (Cell.replace_escaped_quote mid)) ∧
    (∀ cs : List Char,
      (∀ line ∈ splitOnChar '\n' cs, line.countP (fun c => c = dquote) ≤ 1) →
      cs.contains dquote = true →
      Cell.sanitize_str_value cs = .error .invalidCellValue) ∧
    (∀ cs : List Char, cs.countP (fun c => c = dquote) = 0 →
      Cell.sanitize_str_value cs = .ok cs) ∧
    Cell.sanitize_str_value [dquote, dquote] = .ok [] ∧
    Cell.sanitize_str_value ['a'] = .ok ['a'] ∧
    Cell.sanitize_str_value [dquote, '\\', dquote, dquote] = .ok [dquote] ∧
    Cell.sanitize_str_value [dquote, 'a', 'a', 'a', ' ', dquote]
      = .ok ['a', 'a', 'a', ' '] ∧
    Cell.sanitize_str_value ['a', dquote, 'b', dquote, 'c'] = .ok ['b'] ∧
    Cell.sanitize_str_value [dquote, 'a', dquote, 'b'] = .ok ['a'] := by
  refine ⟨?_, ?_, ?_, ?_, by decide, by decide, by decide, by decide,
          by decide, by decide⟩
  · intro inner hnl
    unfold Cell.sanitize_str_value
    rw [quotedCapture_wrapped (by decide) inner hnl]
  · intro pre mid post hnl_pre hnl_mid hnl_post hpre hpost
    unfold Cell.sanitize_str_value
    rw [quotedCapture_mid (by decide) pre mid post hnl_pre hnl_mid hnl_post
      hpre hpost]
  · intro cs hlines hcont
    unfold Cell.sanitize_str_value
    have hnone : quotedCapture dquote cs = none := by
      unfold quotedCapture
      rw [List.findSome?_eq_none_iff]
      intro line hline
      exact lineQuoteCapture_eq_none (hlines line hline)
    rw [hnone]
    simp only [hcont, if_true]
  · intro cs hc
    unfold Cell.sanitize_str_value
    rw [quotedCapture_eq_none (by omega)]
    have hmem : dquote ∉ cs := by
      intro hm
      have hpos : 0 < cs.countP (fun c => c = dquote) :=
        List.countP_pos_iff.mpr ⟨dquote, hm, by simp⟩
      omega
    have hcont : cs.contains dquote = false :=
      Bool.eq_false_iff.mpr (fun h => hmem (List.elem_iff.mp h))
    simp [hcont, hmem]

/-- C5 witness: the amended theorem applied at the wrapped trailing-space
value, at the non-wrapping quotes of `a"b"c`, at a value with one bare quote,
and at plain unquoted text. -/
theorem C5_witness :
    Cell.sanitize_str_value (dquote :: (('a' :: 'a' :: 'a' :: ' ' :: []) ++ [dquote]))
      = .ok (Cell.replace_escaped_quote ('a' :: 'a' :: 'a' :: ' ' :: [])) ∧
    Cell.sanitize_str_value (['a'] ++ dquote :: (['b'] ++ dquote :: ['c']))
      = .ok (Cell.replace_escaped_quote ['b']) ∧
    Cell.sanitize_str_value ['x', dquote] = .error .invalidCellValue ∧
    Cell.sanitize_str_value ['x'] = .ok ['x'] :=
  ⟨C5_sanitize_str_value.1 ('a' :: 'a' :: 'a' :: ' ' :: []) (by decide),
   C5_sanitize_str_value.2.1 ['a'] ['b'] ['c'] (by decide) (by decide)
     (by decide) (by decide) (by decide),
   C5_sanitize_str_value.2.2.1 ['x', dquote] (by decide) (by decide),
   C5_sanitize_str_value.2.2.2.1 ['x'] (by decide)⟩

/-! ## C1 -/

/-- C1: column letter encode/decode round-trip on `0..=129`
(`col_alphabet_to_num (num_to_alphabet_base_number n) = Ok n`), the literal
pairs `0↔"A"`, `25↔"Z"`, `26↔"AA"`, `27↔"AB"`, `51↔"AZ"`, `52↔"BA"`,
`129↔"DZ"` in both directions, and `col_alphabet_to_num` follows the spec's
digit rule (last letter: 0-based value; earlier letters: `(value+1)*26`) on
every non-empty `[A-Z]` string. -/
theorem C1_col_alphabet_roundtrip :
    (∀ n : Nat, n ≤ 129 →
      col_alphabet_to_num (num_to_alphabet_base_number n) = .ok n) ∧
    (num_to_alphabet_base_number 0 = ['A'] ∧ col_alphabet_to_num ['A'] = .ok 0) ∧
    (num_to_alphabet_base_number 25 = ['Z'] ∧ col_alphabet_to_num ['Z'] = .ok 25) ∧
    (num_to_alphabet_base_number 26 = ['A', 'A'] ∧
      col_alphabet_to_num ['A', 'A'] = .ok 26) ∧
    (num_to_alphabet_base_number 27 = ['A', 'B'] ∧
      col_alphabet_to_num ['A', 'B'] = .ok 27) ∧
    (num_to_alphabet_base_number 51 = ['A', 'Z'] ∧
      col_alphabet_to_num ['A', 'Z'] = .ok 51) ∧
    (num_to_alphabet_base_number 52 = ['B', 'A'] ∧
      col_alphabet_to_num ['B', 'A'] = .ok 52) ∧
    (num_to_alphabet_base_number 129 = ['D', 'Z'] ∧
      col_alphabet_to_num ['D', 'Z'] = .ok 129) ∧
    (∀ cs : List Char, cs ≠ [] → (∀ c ∈ cs, isUpperAZ c = true) →
      col_alphabet_to_num cs = .ok (decode_digit_rule cs)) := by
  refine ⟨?_, by decide, by decide, by decide, by decide, by decide, by decide,
          by decide, ?_⟩
  · intro n hn
    exact (by decide :
      ∀ m : Nat, m < 130 →
        col_alphabet_to_num (num_to_alphabet_base_number m) = .ok m) n (by omega)
  · intro cs hne hall
    have h := colAlphaLoop_digit_rule cs 0 hne hall
    simpa [col_alphabet_to_num] using h

/-- C1 witness: the round-trip theorem applied at `n = 129` and the digit rule
applied at `"DZ"`. -/
theorem C1_witness :
    col_alphabet_to_num (num_to_alphabet_base_number 129) = .ok 129 ∧
    col_alphabet_to_num ['D', 'Z'] = .ok (decode_digit_rule ['D', 'Z']) :=
  ⟨C1_col_alphabet_roundtrip.1 129 (by decide),
   C1_col_alphabet_roundtrip.2.2.2.2.2.2.2.2 ['D', 'Z'] (by decide) (by decide)⟩

/-! ## C4 -/

/-- The quoted-sheet test string `'sheet name 1'!B2:BA2`. -/
def quoted_range_example : List Char :=
  squote :: ("sheet name 1".toList ++ squote :: '!' :: "B2:BA2".toList)

/-- A sheet name containing an embedded single quote. -/
def quoted_name_example : List Char := 'a' :: squote :: 'b' :: []

/-- C4 counterexample: for the sheet name `a'b`, the claim says the display
form escapes the embedded quote as `''` (giving `'a''b'!A1:A1`), but the code
writes the name verbatim between the quotes, giving `'a'b'!A1:A1`. -/
theorem C4_counterexample :
    RangeRef.toChars ⟨some quoted_name_example, ⟨0, 0⟩, ⟨0, 0⟩⟩
      = squote :: 'a' :: squote :: 'b' :: squote :: '!' :: "A1:A1".toList ∧
    RangeRef.toChars ⟨some quoted_name_example, ⟨0, 0⟩, ⟨0, 0⟩⟩
      ≠ squote :: 'a' :: squote :: squote :: 'b' :: squote :: '!' :: "A1:A1".toList := by
  decide

/-- C4 (amended): both tested strings round-trip exactly through
`RangeRef::from_str` followed by `Display` (`'sheet name 1'!B2:BA2` and
`B2:BA3`), and whenever a sheet name is present the display form wraps it in
single quotes verbatim — embedded single quotes are NOT escaped as `''`. -/
theorem C4_range_display_roundtrip :
    (RangeRef.from_str quoted_range_example).map RangeRef.toChars
      = .ok quoted_range_example ∧
    (RangeRef.from_str "B2:BA3".toList).map RangeRef.toChars
      = .ok "B2:BA3".toList ∧
    (∀ (name : List Char) (s e : CellRef),
      RangeRef.toChars ⟨some name, s, e⟩
        = squote :: (name ++ squote :: '!' ::
            (CellRef.toChars s ++ ':' :: CellRef.toChars e))) := by
  refine ⟨by decide, by decide, ?_⟩
  intro name s e
  simp [RangeRef.toChars]

/-! ## C9 -/

/-- The reversed-columns test string `'sheet name 1'!B2:A2`. -/
def reversed_cols_example : List Char :=
  squote :: ("sheet name 1".toList ++ squote :: '!' :: "B2:A2".toList)

/-- C9: range parsing is total with typed errors — every successful
`RangeRef::from_str` satisfies the start-at-or-upper-left invariant; the
reversed-row, reversed-column, and zero-row test inputs all fail; any zero
row digit value makes cell parsing fail; and any input the range regex does
not match fails with `InvalidRangeString`. -/
theorem C9_range_parse_errors :
    (∀ (cs : List Char) (r : RangeRef), RangeRef.from_str cs = .ok r →
      r.start.is_at_left_upper_or_same_as r.ending = true) ∧
    RangeRef.from_str "A3:A2".toList = .error .invalidRangeDirection ∧
    RangeRef.from_str reversed_cols_example = .error .invalidRangeDirection ∧
    CellRef.from_str "B0".toList = .error .invalidCellRefString ∧
    (∀ (col ds : List Char), parse_usize ds = some 0 →
      ∀ c : CellRef, CellRef.from_row_and_col col ds ≠ .ok c) ∧
    (∀ cs : List Char, searchRangeRegex cs = none →
      RangeRef.from_str cs = .error .invalidRangeString) := by
  refine ⟨?_, by decide, by decide, by decide, ?_, ?_⟩
  · intro cs r h
    unfold RangeRef.from_str at h
    split at h
    · cases h
    · split at h
      · cases h
      · split at h
        · cases h
        · split at h
          · cases h
          · split at h
            · cases h
            · rename_i hv
              cases h
              unfold RangeRef.validate at hv
              split at hv
              · cases hv
              · rename_i hcond
                simpa using hcond
  · intro col ds h0 c hc
    unfold CellRef.from_row_and_col at hc
    rw [h0] at hc
    split at hc
    · cases hc
    · simp at hc
  · intro cs h
    unfold RangeRef.from_str
    rw [h]

/-- C9 witness: the invariant applied to the parsed `A1:B2`, the zero-row rule
applied to column `B` digits `0`, and the no-match rule applied to `zzz`. -/
theorem C9_witness :
    CellRef.is_at_left_upper_or_same_as
      (RangeRef.mk none ⟨0, 0⟩ ⟨1, 1⟩).start (RangeRef.mk none ⟨0, 0⟩ ⟨1, 1⟩).ending
      = true ∧
    CellRef.from_row_and_col ['B'] ['0'] ≠ .ok ⟨1, 0⟩ ∧
    RangeRef.from_str ['z', 'z', 'z'] = .error .invalidRangeString :=
  ⟨C9_range_parse_errors.1 "A1:B2".toList ⟨none, ⟨0, 0⟩, ⟨1, 1⟩⟩ (by decide),
   C9_range_parse_errors.2.2.2.2.1 ['B'] ['0'] (by decide) ⟨1, 0⟩,
   C9_range_parse_errors.2.2.2.2.2 ['z', 'z', 'z'] (by decide)⟩

/-! ## C3 -/

/-- The dotted header list `["col1","col2.greeding1","col3","col2.greeding2"]`. -/
def nested_headers_example : List (List Char) :=
  ["col1".toList, "col2.greeding1".toList, "col3".toList, "col2.greeding2".toList]

/-- The template `from_strs` builds for `nested_headers_example`. -/
def nested_structure_example : JsonStructure.ObjState :=
  (["col1".toList, "col2".toList, "col3".toList],
   [("col1".toList, .value "col1".toList 0),
    ("col2".toList, .object ["greeding1".toList, "greeding2".toList]
      [("greeding1".toList, .value "greeding1".toList 1),
       ("greeding2".toList, .value "greeding2".toList 3)]),
    ("col3".toList, .value "col3".toList 2)])

/-- The duplicate header list `["hello","hello2","hello"]`. -/
def dup_headers_example : List (List Char) :=
  ["hello".toList, "hello2".toList, "hello".toList]

/-- The template `from_strs` builds for `dup_headers_example`: `hello` holds
the array of indices `[0, 2]`, `hello2` the scalar index `1`. -/
def dup_structure_example : JsonStructure.ObjState :=
  (["hello".toList, "hello2".toList],
   [("hello".toList, .array "hello".toList [0, 2]),
    ("hello2".toList, .value "hello2".toList 1)])

/-- C3: building the template from
`["col1","col2.greeding1","col3","col2.greeding2"]` and projecting
`["v0","v1","v2","v3"]` yields exactly
`{"col1":"v0","col2":{"greeding1":"v1","greeding2":"v3"},"col3":"v2"}` (keys
in first-seen order); and for `["hello","hello2","hello"]`, projecting any row
`[w0, w1, w2]` yields `hello` as the array `[w0, w2]` in that order and
`hello2` as the scalar `w1`. -/
theorem C3_structure_build_project :
    JsonStructure.from_strs nested_headers_example = .ok nested_structure_example ∧
    JsonStructure.build_json
        (.object nested_structure_example.1 nested_structure_example.2)
        [.str "v0".toList, .str "v1".toList, .str "v2".toList, .str "v3".toList]
      = .ok (.obj
          [("col1".toList, .str "v0".toList),
           ("col2".toList, .obj
             [("greeding1".toList, .str "v1".toList),
              ("greeding2".toList, .str "v3".toList)]),
           ("col3".toList, .str "v2".toList)]) ∧
    JsonStructure.from_strs dup_headers_example = .ok dup_structure_example ∧
    (∀ w0 w1 w2 : JsonStructure.Json,
      JsonStructure.build_json
          (.object dup_structure_example.1 dup_structure_example.2) [w0, w1, w2]
        = .ok (.obj
            [("hello".toList, .arr [w0, w2]),
             ("hello2".toList, w1)])) := by
  refine ⟨by rfl, by rfl, by rfl, ?_⟩
  intro w0 w1 w2
  rfl

/-! ## C8 -/

/-- `add_value_with_key_seq` never reaches its `panic!` branch when started
on a non-empty key sequence (recursive calls always pass a non-empty
suffix). -/
theorem add_value_with_key_seq_no_bug :
    ∀ (seq : List JsonStructure.Key) (idx : Nat) (st : JsonStructure.ObjState),
      seq ≠ [] →
      JsonStructure.add_value_with_key_seq seq idx st
        ≠ .error .keySeqOutOfRangeBug
  | [], _, _, h => absurd rfl h
  | [k], idx, (keys, vals), _ => by
    cases hl : JsonStructure.lookupA vals k with
    | none => simp [JsonStructure.add_value_with_key_seq, hl]
    | some s => cases s <;> simp [JsonStructure.add_value_with_key_seq, hl]
  | k :: k2 :: kr, idx, (keys, vals), _ => by
    cases hl : JsonStructure.lookupA vals k with
    | none =>
      cases hrec : JsonStructure.add_value_with_key_seq (k2 :: kr) idx ([], []) with
      | error e =>
        have hne := add_value_with_key_seq_no_bug (k2 :: kr) idx ([], []) (by simp)
        rw [hrec] at hne
        simp only [JsonStructure.add_value_with_key_seq, hl, hrec]
        simpa using hne
      | ok st2 =>
        obtain ⟨nk, nv⟩ := st2
        simp [JsonStructure.add_value_with_key_seq, hl, hrec]
    | some s =>
      cases s with
      | object okeys ovals =>
        cases hrec : JsonStructure.add_value_with_key_seq (k2 :: kr) idx (okeys, ovals) with
        | error e =>
          have hne := add_value_with_key_seq_no_bug (k2 :: kr) idx (okeys, ovals) (by simp)
          rw [hrec] at hne
          simp only [JsonStructure.add_value_with_key_seq, hl, hrec]
          simpa using hne
        | ok st2 =>
          obtain ⟨nk, nv⟩ := st2
          simp [JsonStructure.add_value_with_key_seq, hl, hrec]
      | array key arr => simp [JsonStructure.add_value_with_key_seq, hl]
      | value key i => simp [JsonStructure.add_value_with_key_seq, hl]

/-- C8: `Object::add_value` splits on `.` with trimming and rejects empty
segments (hence also the empty path) with an invalid-key error; during the
walk an existing `Value`/`Array` at a non-final segment is an
`InvalidJsonStructureDef` (object-after-scalar) error; at the final segment an
existing `Object` is an `InvalidJsonStructureDef` (value-after-object) error,
a new key creates a `Value` node (appending the key to the order vector), a
repeated key upgrades the `Value` in place to an `Array` seeded with both
indices in encounter order, and further repeats append; and no input reaches
the `panic!` branch. -/
theorem C8_add_value_conflicts :
    (∀ (st : JsonStructure.ObjState) (key : List Char) (idx : Nat),
      (JsonStructure.split_keys key).any (fun e => e.isEmpty) →
      JsonStructure.add_value st key idx = .error .invalidKey) ∧
    (∀ (keys : List JsonStructure.Key) (vals : List (JsonStructure.Key × JsonStructure.Structure))
       (k : JsonStructure.Key) (rest : List JsonStructure.Key) (idx : Nat)
       (key : JsonStructure.Key) (arr : List Nat), rest ≠ [] →
      JsonStructure.lookupA vals k = some (.array key arr) →
      JsonStructure.add_value_with_key_seq (k :: rest) idx (keys, vals)
        = .error .invalidJsonStructureDef) ∧
    (∀ (keys : List JsonStructure.Key) (vals : List (JsonStructure.Key × JsonStructure.Structure))
       (k : JsonStructure.Key) (rest : List JsonStructure.Key) (idx : Nat)
       (key : JsonStructure.Key) (i : Nat), rest ≠ [] →
      JsonStructure.lookupA vals k = some (.value key i) →
      JsonStructure.add_value_with_key_seq (k :: rest) idx (keys, vals)
        = .error .invalidJsonStructureDef) ∧
    (∀ (keys : List JsonStructure.Key) (vals : List (JsonStructure.Key × JsonStructure.Structure))
       (k : JsonStructure.Key) (idx : Nat)
       (okeys : List JsonStructure.Key) (ovals : List (JsonStructure.Key × JsonStructure.Structure)),
      JsonStructure.lookupA vals k = some (.object okeys ovals) →
      JsonStructure.add_value_with_key_seq [k] idx (keys, vals)
        = .error .invalidJsonStructureDef) ∧
    (∀ (keys : List JsonStructure.Key) (vals : List (JsonStructure.Key × JsonStructure.Structure))
       (k : JsonStructure.Key) (idx : Nat),
      JsonStructure.lookupA vals k = none →
      JsonStructure.add_value_with_key_seq [k] idx (keys, vals)
        = .ok (keys ++ [k], JsonStructure.insertA vals k (.value k idx))) ∧
    (∀ (keys : List JsonStructure.Key) (vals : List (JsonStructure.Key × JsonStructure.Structure))
       (k : JsonStructure.Key) (idx : Nat) (key : JsonStructure.Key) (e : Nat),
      JsonStructure.lookupA vals k = some (.value key e) →
      JsonStructure.add_value_with_key_seq [k] idx (keys, vals)
        = .ok (keys, JsonStructure.insertA vals k (.array key [e, idx]))) ∧
    (∀ (keys : List JsonStructure.Key) (vals : List (JsonStructure.Key × JsonStructure.Structure))
       (k : JsonStructure.Key) (idx : Nat) (key : JsonStructure.Key) (arr : List Nat),
      JsonStructure.lookupA vals k = some (.array key arr) →
      JsonStructure.add_value_with_key_seq [k] idx (keys, vals)
        = .ok (keys, JsonStructure.insertA vals k (.array key (arr ++ [idx])))) ∧
    (∀ (st : JsonStructure.ObjState) (key : List Char) (idx : Nat),
      JsonStructure.add_value st key idx ≠ .error .keySeqOutOfRangeBug) := by
  refine ⟨?_, ?_, ?_, ?_, ?_, ?_, ?_, ?_⟩
  · intro st key idx h
    have hne : JsonStructure.split_keys key ≠ [] := by
      unfold JsonStructure.split_keys
      simp only [ne_eq, List.map_eq_nil_iff]
      exact splitOnChar_ne_nil '.' key
    unfold JsonStructure.add_value
    rw [if_neg (by simpa [List.isEmpty_iff] using hne), if_pos h]
  · intro keys vals k rest idx key arr hrest hl
    cases rest with
    | nil => exact absurd rfl hrest
    | cons k2 kr => simp [JsonStructure.add_value_with_key_seq, hl]
  · intro keys vals k rest idx key i hrest hl
    cases rest with
    | nil => exact absurd rfl hrest
    | cons k2 kr => simp [JsonStructure.add_value_with_key_seq, hl]
  · intro keys vals k idx okeys ovals hl
    simp [JsonStructure.add_value_with_key_seq, hl]
  · intro keys vals k idx hl
    have hco : JsonStructure.containsA vals k = false := by
      simp [JsonStructure.containsA, hl]
    simp [JsonStructure.add_value_with_key_seq, hl, JsonStructure.inner_add, hco]
  · intro keys vals k idx key e hl
    have hco : JsonStructure.containsA vals k = true := by
      simp [JsonStructure.containsA, hl]
    simp [JsonStructure.add_value_with_key_seq, hl, JsonStructure.inner_add, hco]
  · intro keys vals k idx key arr hl
    simp [JsonStructure.add_value_with_key_seq, hl]
  · intro st key idx
    unfold JsonStructure.add_value
    split
    · simp
    · split
      · simp
      · apply add_value_with_key_seq_no_bug
        unfold JsonStructure.split_keys
        simp only [ne_eq, List.map_eq_nil_iff]
        exact splitOnChar_ne_nil '.' key

/-- C8 witness: the conflict rules applied at concrete inputs — the label
`"."` (empty segments) is rejected; a repeated scalar key `a` upgrades to the
array `[0, 1]`; and `add_value` on a fresh object does not hit the `panic!`
model. -/
theorem C8_witness :
    JsonStructure.add_value ([], []) ['.'] 0 = .error .invalidKey ∧
    JsonStructure.add_value_with_key_seq [['a']] 1
        ([['a']], [(['a'], .value ['a'] 0)])
      = .ok ([['a']], JsonStructure.insertA [(['a'], .value ['a'] 0)] ['a']
          (.array ['a'] [0, 1])) ∧
    JsonStructure.add_value ([], []) ['a'] 0 ≠ .error .keySeqOutOfRangeBug :=
  ⟨C8_add_value_conflicts.1 ([], []) ['.'] 0 (by decide),
   C8_add_value_conflicts.2.2.2.2.2.1 [['a']] [(['a'], .value ['a'] 0)] ['a'] 1 ['a'] 0 rfl,
   C8_add_value_conflicts.2.2.2.2.2.2.2 ([], []) ['a'] 0⟩

/-! ## C2 -/

open ApiEverywhere.SpreadSheet in
/-- C2: with no specific row index, the paginated window starts at the header
range's next row index plus the requested offset (default `0`); the computed
window spans `limit` rows in the code's own accounting (`finish - start =
limit`, the quantity `ReadValueOption::validate` checks), with `limit`
defaulting to the fixed page size `100`; the effective offset/limit are echoed
back; and a limit exceeding the fixed maximum makes `fetch_sheet_value` fail
with `TooManyRowNumber` (whenever the start row is inside the sheet, so that
a fetch would otherwise be issued). -/
theorem C2_paginated_window :
    (∀ (hr : Range.RangeRef) (o l : Option Nat),
      fetch_row_window hr (FetchRowCondition.with_pagination o l)
        = (hr.next_row_index + o.getD 0,
           hr.next_row_index + o.getD 0 + l.getD DEFAULT_ROW_NUMBER_TO_READ_AT_ONCE,
           some ⟨some (o.getD 0), some (l.getD DEFAULT_ROW_NUMBER_TO_READ_AT_ONCE)⟩)) ∧
    (∀ (hr : Range.RangeRef) (o l : Option Nat),
      (fetch_row_window hr (FetchRowCondition.with_pagination o l)).2.1
          - (fetch_row_window hr (FetchRowCondition.with_pagination o l)).1
        = l.getD DEFAULT_ROW_NUMBER_TO_READ_AT_ONCE) ∧
    DEFAULT_ROW_NUMBER_TO_READ_AT_ONCE = 100 ∧
    (∀ (gateway : ReadValueOption → Except ValueError RowValues)
       (headers : RawHeaders) (cond : HeaderSearchCondition)
       (o l : Option Nat) (property : SheetProperty),
      cond.sheet_info.find_property_by_name cond.sheet_name = some property →
      headers.range.next_row_index + o.getD 0
        < property.properties.grid_properties.row_count →
      MAX_ROW_NUMBER_TO_READ_AT_ONCE < l.getD DEFAULT_ROW_NUMBER_TO_READ_AT_ONCE →
      fetch_sheet_value gateway (.ok headers) cond
          (FetchRowCondition.with_pagination o l)
        = .error (.valueError (.tooManyRowNumber MAX_ROW_NUMBER_TO_READ_AT_ONCE
            (l.getD DEFAULT_ROW_NUMBER_TO_READ_AT_ONCE)))) := by
  refine ⟨fun hr o l => rfl, ?_, rfl, ?_⟩
  · intro hr o l
    show hr.next_row_index + o.getD 0 + l.getD DEFAULT_ROW_NUMBER_TO_READ_AT_ONCE
        - (hr.next_row_index + o.getD 0) = l.getD DEFAULT_ROW_NUMBER_TO_READ_AT_ONCE
    omega
  · intro gateway headers cond o l property hfind hstart hlimit
    unfold fetch_sheet_value
    rw [hfind]
    dsimp only [fetch_row_window, FetchRowCondition.with_pagination]
    rw [if_neg (Nat.not_le_of_lt hstart)]
    unfold read_values ReadValueOption.validate
    dsimp only
    rw [if_neg (by omega), if_pos (by omega)]
    have harith : headers.range.next_row_index + o.getD 0
          + l.getD DEFAULT_ROW_NUMBER_TO_READ_AT_ONCE
          - (headers.range.next_row_index + o.getD 0)
        = l.getD DEFAULT_ROW_NUMBER_TO_READ_AT_ONCE := by omega
    rw [harith]

open ApiEverywhere.SpreadSheet in
/-- C2 witness: the window equations applied at a one-row header range with
offset 2 / limit 5, and the `TooManyRowNumber` failure applied with limit
20000 against a 1000-row sheet. -/
theorem C2_witness :
    fetch_row_window ⟨none, ⟨0, 0⟩, ⟨0, 0⟩⟩
        (FetchRowCondition.with_pagination (some 2) (some 5))
      = (3, 8, some ⟨some 2, some 5⟩) ∧
    fetch_sheet_value (fun _ => .ok RowValues.empty)
        (.ok ⟨⟨none, ⟨0, 0⟩, ⟨0, 0⟩⟩, []⟩)
        ⟨"sid".toList, none, none,
          ⟨"sid".toList,
           [⟨⟨0, "grouping".toList, 0, "GRID".toList,
              ⟨1000, 28, none, none, none, none, none⟩⟩⟩]⟩⟩
        (FetchRowCondition.with_pagination none (some 20000))
      = .error (.valueError (.tooManyRowNumber 10000 20000)) :=
  ⟨C2_paginated_window.1 ⟨none, ⟨0, 0⟩, ⟨0, 0⟩⟩ (some 2) (some 5),
   C2_paginated_window.2.2.2 (fun _ => .ok RowValues.empty)
     ⟨⟨none, ⟨0, 0⟩, ⟨0, 0⟩⟩, []⟩
     ⟨"sid".toList, none, none,
       ⟨"sid".toList,
        [⟨⟨0, "grouping".toList, 0, "GRID".toList,
           ⟨1000, 28, none, none, none, none, none⟩⟩⟩]⟩⟩
     none (some 20000) _ rfl (by decide) (by decide)⟩

/-! ## C7 -/

open ApiEverywhere.SpreadSheet in
/-- C7: whenever the computed absolute start row is at or beyond the sheet's
reported row count, `fetch_sheet_value` returns `Ok` with an explicitly empty
row-value set, still carrying the resolved headers and the pagination echo —
for EVERY gateway, i.e. without issuing the value fetch, and without
returning an error. -/
theorem C7_past_end_returns_empty :
    ∀ (gateway : ReadValueOption → Except ValueError RowValues)
      (headers : RawHeaders) (cond : HeaderSearchCondition)
      (row_cond : FetchRowCondition) (property : SheetProperty),
      cond.sheet_info.find_property_by_name cond.sheet_name = some property →
      property.properties.grid_properties.row_count
        ≤ (fetch_row_window headers.range row_cond).1 →
      fetch_sheet_value gateway (.ok headers) cond row_cond
        = .ok ⟨headers, RowValues.empty,
               (fetch_row_window headers.range row_cond).2.2⟩ := by
  intro gateway headers cond row_cond property hfind hpast
  unfold fetch_sheet_value
  rcases hw : fetch_row_window headers.range row_cond with ⟨s, f, p⟩
  rw [hw] at hpast
  rw [hfind]
  dsimp only
  rw [hw]
  dsimp only
  rw [if_pos (by simpa using hpast)]

open ApiEverywhere.SpreadSheet in
/-- C7 witness: a headers range ending at row index 9 (next row 10) against a
5-row sheet returns the empty response with the default pagination echo, even
for a gateway that always fails. -/
theorem C7_witness :
    fetch_sheet_value (fun _ => .error .fetchValueApiError)
        (.ok ⟨⟨none, ⟨0, 0⟩, ⟨9, 9⟩⟩, []⟩)
        ⟨"sid".toList, none, none,
          ⟨"sid".toList,
           [⟨⟨0, "grouping".toList, 0, "GRID".toList,
              ⟨5, 28, none, none, none, none, none⟩⟩⟩]⟩⟩
        (FetchRowCondition.with_pagination none none)
      = .ok ⟨⟨⟨none, ⟨0, 0⟩, ⟨9, 9⟩⟩, []⟩, RowValues.empty,
             some ⟨some 0, some 100⟩⟩ :=
  C7_past_end_returns_empty (fun _ => .error .fetchValueApiError)
    ⟨⟨none, ⟨0, 0⟩, ⟨9, 9⟩⟩, []⟩
    ⟨"sid".toList, none, none,
      ⟨"sid".toList,
       [⟨⟨0, "grouping".toList, 0, "GRID".toList,
          ⟨5, 28, none, none, none, none, none⟩⟩⟩]⟩⟩
    (FetchRowCondition.with_pagination none none) _ rfl (by decide)

/-! ## C6 -/

open ApiEverywhere.SpreadSheet in
/-- One-sheet metadata used to exercise sheet-name resolution. -/
def sheet_info_example : Sheet :=
  ⟨"sid".toList,
   [⟨⟨0, "grouping".toList, 0, "GRID".toList,
      ⟨1000, 28, none, none, none, none, none⟩⟩⟩]⟩

open ApiEverywhere.SpreadSheet in
/-- C6 counterexample: the claim says an unresolvable non-zero tab id fails
with an error distinguishable as NotFound (`is_not_found()` true), but
`HeaderSearchCondition::create` fails with `FetchSheetNameError`, whose
`is_not_found()` is `false` (alone and wrapped in `SpreadSheetError`). -/
theorem C6_counterexample :
    HeaderSearchCondition.create (.ok sheet_info_example)
        ⟨"sid".toList, ⟨some 5, none⟩⟩ none = .error .fetchSheetNameError ∧
    HeaderError.fetchSheetNameError.is_not_found = false ∧
    (SpreadSheetError.headerError .fetchSheetNameError).is_not_found = false := by
  decide

open ApiEverywhere.SpreadSheet in
/-- C6 (amended): a tab id of `0` or an absent selector (and any request that
already carries a sheet name) triggers no id→name metadata resolution
(`is_need_get_sheet_name_by_id` is `None`) and `create` succeeds with the
given (possibly absent) name, where an absent name later selects the
default/first sheet via `find_property_by_name`; any other numeric tab id
that does not resolve through the metadata makes `create` fail with
`FetchSheetNameError` — an error NOT classified as NotFound (`is_not_found()`
returns `false`), so the caller maps it to the BadRequest outward signal. -/
theorem C6_sheet_name_resolution :
    (∀ m : SheetIdOrName, m.tab_sheet_id = none ∨ m.tab_sheet_id = some 0 →
      m.is_need_get_sheet_name_by_id = none) ∧
    (∀ (m : SheetIdOrName) (name : List Char), m.tab_sheet_name = some name →
      m.is_need_get_sheet_name_by_id = none) ∧
    (∀ (info : Sheet) (meta : SheetMeta) (spec : Option (Range.CellRef × Range.CellRef)),
      meta.sheet_id_or_name.is_need_get_sheet_name_by_id = none →
      HeaderSearchCondition.create (.ok info) meta spec
        = .ok ⟨meta.spread_sheet_id, meta.sheet_id_or_name.tab_sheet_name,
               spec, info⟩) ∧
    (∀ info : Sheet, info.find_property_by_name none = info.sheets.get? 0) ∧
    (∀ (info : Sheet) (meta : SheetMeta) (spec : Option (Range.CellRef × Range.CellRef))
       (sid : Nat),
      meta.sheet_id_or_name.is_need_get_sheet_name_by_id = some sid →
      info.find_property_by_id sid = none →
      HeaderSearchCondition.create (.ok info) meta spec
        = .error .fetchSheetNameError) ∧
    HeaderError.fetchSheetNameError.is_not_found = false := by
  refine ⟨?_, ?_, ?_, fun info => rfl, ?_, rfl⟩
  · intro m hm
    unfold SheetIdOrName.is_need_get_sheet_name_by_id
    cases hname : m.tab_sheet_name with
    | some nm => rfl
    | none =>
      rcases hm with h | h
      · rw [h]
      · rw [h]
        simp
  · intro m name hm
    unfold SheetIdOrName.is_need_get_sheet_name_by_id
    rw [hm]
  · intro info meta spec hneed
    unfold HeaderSearchCondition.create
    rw [hneed]
    rfl
  · intro info meta spec sid hneed hfind
    unfold HeaderSearchCondition.create
    rw [hneed]
    dsimp only
    rw [hfind]
    rfl

open ApiEverywhere.SpreadSheet in
/-- C6 witness: tab id `0` resolves without lookup against the example
metadata; tab id `5` (absent from the metadata) fails with the
non-NotFound `FetchSheetNameError`. -/
theorem C6_witness :
    HeaderSearchCondition.create (.ok sheet_info_example)
        ⟨"sid".toList, ⟨some 0, none⟩⟩ none
      = .ok ⟨"sid".toList, none, none, sheet_info_example⟩ ∧
    HeaderSearchCondition.create (.ok sheet_info_example)
        ⟨"sid".toList, ⟨some 5, none⟩⟩ none
      = .error .fetchSheetNameError :=
  ⟨C6_sheet_name_resolution.2.2.1 sheet_info_example
     ⟨"sid".toList, ⟨some 0, none⟩⟩ none (by decide),
   C6_sheet_name_resolution.2.2.2.2.1 sheet_info_example
     ⟨"sid".toList, ⟨some 5, none⟩⟩ none 5 (by decide) (by decide)⟩

/-! ## C10 -/

/-- C10: `prepend_vec v vs` leaves the vector holding `v` followed by the
previous contents in order — it equals `vs.insert(0, v)` (`List.insertIdx 0`),
so its length grows by exactly one, its head is `v` and its tail is the old
vector; consequently `num_to_alphabet_base_number` assembles its letters
most-significant first (seen at `27 = "AB"`). -/
theorem C10_prepend_vec {α : Type} (v : α) (vs : List α) :
    prepend_vec v vs = v :: vs ∧
    prepend_vec v vs = vs.insertIdx 0 v ∧
    (prepend_vec v vs).length = vs.length + 1 ∧
    (prepend_vec v vs).head? = some v ∧
    (prepend_vec v vs).tail = vs ∧
    num_to_alphabet_base_number 27 = ['A', 'B'] := by
  have h := prepend_vec_eq_cons v vs
  refine ⟨h, ?_, ?_, ?_, ?_, by decide⟩ <;> simp [h]

end ApiEverywhere
